import Mathlib

/-!
# Verification of `gas-slack-notifier`

A shallow embedding of the TypeScript sources of the repository
(`src/SlackMentionAggregator.ts` and the companion notifier module holding
`postToSlack`), together with proofs about the claims of its specification.

Modelling conventions:

* JavaScript strings that may be `undefined` are `Option String`; JavaScript
  truthiness of such a value (`if (x)`, `x || y`) is `jsTruthy`.
* The remote Slack search API is a function `Nat → SlackApiReply` from page
  numbers to replies.  `SlackApiReply.malformed` stands for any response body
  that `JSON.parse` rejects or that lacks the shape the code dereferences
  (`resJson.messages.pagination.page_count` etc.); consuming it raises a
  JavaScript exception, modelled by `Except`.
* `Logger.log` output is a `List LogEntry`; each constructor stands for one
  distinct log line of the source, carrying the interpolated data.
* The ES2015 `Map` (insertion ordered, `set` overwrites in place) is an
  association list with the update operation `mapSet`.
* ICU `localeCompare` collation is modelled by codepoint-lexicographic
  comparison (`lexLe`); `Array.prototype.sort` (stable since ES2019) is
  modelled by the stable `List.insertionSort`.
-/

namespace GasSlackNotifier

/-- The `channel` object of a Slack search match; both fields may be absent. -/
structure Channel where
  id : Option String := none
  name : Option String := none
deriving DecidableEq, Repr

/-- One element of `resJson.messages.matches`.  Only the fields the program
dereferences are modelled. -/
structure MessageMatch where
  channel : Option Channel := none
  text : Option String := none
deriving DecidableEq, Repr

/-- The record `{ id, name }` built by `aggregateMentions`. -/
structure ChannelSummary where
  id : String
  name : String
deriving DecidableEq, Repr

/-- JavaScript truthiness of a possibly-`undefined` string: `undefined` and
`""` are falsy, every other string is truthy. -/
def jsTruthy : Option String → Bool
  | none => false
  | some s => s != ""

/-- The channel name chosen at line 148 of `SlackMentionAggregator.ts`:
`msg.channel.name || ` followed by the template
`private-channel-` and `msg.channel.id`. -/
def resolvedName (ch : Channel) (cid : String) : String :=
  match ch.name with
  | some n => if n = "" then "private-channel-" ++ cid else n
  | none => "private-channel-" ++ cid

/-- `Map.prototype.set`: overwrite the value of an existing key in place,
otherwise append the binding at the end (insertion order). -/
def mapSet (m : List (String × String)) (k v : String) : List (String × String) :=
  match m with
  | [] => [(k, v)]
  | (k', v') :: rest => if k' = k then (k, v) :: rest else (k', v') :: mapSet rest k v

/-- The body of the `messages.forEach` loop of `aggregateMentions`: the guard
`if (msg.channel && msg.channel.id)` (JS truthiness, so an absent channel, an
absent id and the empty-string id are all skipped) followed by
`channelMap.set(msg.channel.id, channelName)`. -/
def forEachBody (channelMap : List (String × String)) (msg : MessageMatch) :
    List (String × String) :=
  match msg.channel with
  | none => channelMap
  | some ch =>
    match ch.id with
    | none => channelMap
    | some cid =>
      if cid = "" then channelMap
      else mapSet channelMap cid (resolvedName ch cid)

/-- The deduplicating pass of `aggregateMentions`: the `forEach` loop folded
over the matches, starting from the empty map. -/
def buildChannelMap (messages : List MessageMatch) : List (String × String) :=
  messages.foldl forEachBody []

/-- Lexicographic comparison of codepoint sequences: our model of the ICU
collation behind `localeCompare` (negative-or-zero, i.e. `a ≤ b`). -/
def lexLe : List Char → List Char → Bool
  | [], _ => true
  | _ :: _, [] => false
  | a :: as, b :: bs =>
    if a.toNat < b.toNat then true
    else if b.toNat < a.toNat then false
    else lexLe as bs

/-- `a.localeCompare(b) <= 0` in the modelled collation. -/
def strLe (a b : String) : Bool := lexLe a.data b.data

/-- The sort order of the comparator
`(a, b) => a.name.localeCompare(b.name)` of line 159. -/
def chanLe (a b : ChannelSummary) : Prop := strLe a.name b.name = true

instance : DecidableRel chanLe :=
  fun a b => inferInstanceAs (Decidable (strLe a.name b.name = true))

/-- `aggregateMentions` (lines 142–160): deduplicate the matches into the
insertion-ordered channel map, turn it into a list of `{ id, name }` records,
and sort that list by name.  `Array.prototype.sort` is modelled by a stable
comparison sort (`insertionSort`); no claim depends on the tie-breaking
order beyond stability. -/
def aggregateMentions (messages : List MessageMatch) : List ChannelSummary :=
  ((buildChannelMap messages).map fun p => ChannelSummary.mk p.1 p.2).insertionSort chanLe

/-- A JavaScript exception escaping the program.  `jsonParse` is the
`SyntaxError`/`TypeError` raised while parsing or dereferencing a response
body; `typeError` is the `TypeError` raised by the sample-logging line 119 when
`matches[0]` lacks a `channel` or a `text` field. -/
inductive JsError where
  | jsonParse
  | typeError
deriving DecidableEq, Repr

/-- One reply of the Slack search endpoint for one requested page.

* `malformed`: a body that `JSON.parse` rejects, or parsed JSON missing the
  shape the code dereferences without a guard (`resJson.messages`,
  `resJson.messages.pagination`, …) — consuming it throws.
* `failure err`: a body with falsy `ok`; `err` is the `error` field
  (`none` when absent, in which case the log shows `undefined`).
* `success matches pageCount totalCount`: a body with truthy `ok`,
  `resJson.messages.matches` (already defaulted to `[]` by `|| []`),
  `resJson.messages.pagination.page_count` and `.total_count`. -/
inductive SlackApiReply where
  | malformed
  | failure (error : Option String)
  | success (ms : List MessageMatch) (pageCount : Nat) (totalCount : Nat)
deriving DecidableEq, Repr

/-- One line of `Logger.log` output, distinguished by the template of the
source line it comes from. -/
inductive LogEntry where
  /-- Line 85: `[DEBUG] Starting Slack Search with query: …`. -/
  | startSearch (query : String)
  /-- Line 100: `[ERROR] Slack API Error: …`. -/
  | apiError (error : Option String)
  /-- Line 102: `[ERROR] Token may be invalid or expired.` -/
  | invalidAuthNote
  /-- Line 110: `[DEBUG] Total hits on Slack: …`. -/
  | totalHits (n : Nat)
  /-- Line 114: `[DEBUG] Page …: Found … matches.` -/
  | pageFound (page n : Nat)
  /-- Line 119: `[DEBUG] Sample Match - Channel: … (…), Text fragment: …`. -/
  | sampleMatch (chName chId : Option String) (fragment : String)
  /-- Line 129: `[WARN] Reached maximum page limit (5). Cutting off.` -/
  | pageLimitWarn
  /-- Line 135: `[DEBUG] Completed search. Total messages collected: …`. -/
  | completed (n : Nat)
  /-- Line 32: the missing-configuration error message. -/
  | configError
  /-- Line 47: `[DEBUG] Search Query Initiated: …`. -/
  | queryInitiated (query : String)
  /-- Line 53: `[DEBUG] No messages found for the query.` -/
  | noMessages
  /-- Webhook poster, success branch (status 200). -/
  | postSuccess
  /-- Webhook poster, failure branch: status code and response body. -/
  | postFailure (status : Nat) (body : String)
  /-- Trigger installation confirmation. -/
  | triggerInstalled
deriving DecidableEq, Repr

/-- The sample-logging block of lines 117–120, applied to `matches[0]`.
`sample.channel.name` throws when `channel` is absent, and
`sample.text.substring(0, 30)` throws when `text` is absent; otherwise one
`sampleMatch` line (absent `name`/`id` print as `undefined`, kept as
`Option`). -/
def sampleLog (m : MessageMatch) : Except JsError LogEntry :=
  match m.channel with
  | none => .error .typeError
  | some ch =>
    match m.text with
    | none => .error .typeError
    | some t => .ok (.sampleMatch ch.name ch.id (t.take 30))

/-- Lines 117–120 for a whole page: no log line when the page is empty,
otherwise `sampleLog` of the first match. -/
def samplePhase (ms : List MessageMatch) : Except JsError (List LogEntry) :=
  match ms with
  | [] => .ok []
  | m :: _ => (sampleLog m).map fun e => [e]

/-- What one run of `searchSlackMessages` produced: the returned array (or the
exception that escaped), the log, and the page numbers requested, in order. -/
structure SearchOutcome where
  result : Except JsError (List MessageMatch)
  log : List LogEntry
  requests : List Nat
deriving Repr

/-- The `do … while (page <= pageCount)` loop of lines 87–133.  `fuel` is a
recursion bound only; the source's own cut-off `if (page > 5) break` fires
before fuel 5 (from the initial `page = 1`) can be exhausted. -/
def searchIter (api : Nat → SlackApiReply) :
    Nat → Nat → List MessageMatch → List LogEntry → List Nat → SearchOutcome
  | 0, _, acc, log, reqs => ⟨.ok acc, log, reqs⟩
  | fuel + 1, page, acc, log, reqs =>
    let reqs' := reqs ++ [page]
    match api page with
    | .malformed => ⟨.error .jsonParse, log, reqs'⟩
    | .failure err =>
      ⟨.ok acc,
        log ++ [.apiError err] ++
          (if err = some "invalid_auth" then [.invalidAuthNote] else []),
        reqs'⟩
    | .success ms pc tc =>
      let log1 := log ++ (if page = 1 then [.totalHits tc] else []) ++
        [.pageFound page ms.length]
      match samplePhase ms with
      | .error e => ⟨.error e, log1, reqs'⟩
      | .ok extra =>
        let log2 := log1 ++ extra
        let acc' := acc ++ ms
        let page' := page + 1
        if page' > 5 then ⟨.ok acc', log2 ++ [.pageLimitWarn], reqs'⟩
        else if page' ≤ pc then searchIter api fuel page' acc' log2 reqs'
        else ⟨.ok acc', log2, reqs'⟩

/-- `searchSlackMessages` (lines 80–137).  The token only feeds the
`Authorization` header, which the environment function `api` abstracts.  The
completion log of line 135 is reached only when no exception escaped the
loop. -/
def searchSlackMessages (api : Nat → SlackApiReply) (token query : String) :
    SearchOutcome :=
  let _ := token
  let out := searchIter api 5 1 [] [.startSearch query] []
  match out.result with
  | .ok msgs => ⟨.ok msgs, out.log ++ [.completed msgs.length], out.requests⟩
  | .error e => ⟨.error e, out.log, out.requests⟩

/-- The webhook endpoint's answer to the one `POST` a run performs: the HTTP
status code (`response.getResponseCode()`) and the body text
(`response.getContentText()`). -/
structure WebhookReply where
  status : Nat
  body : String
deriving DecidableEq, Repr

/-- `postToSlack` of the notifier module (its lines 249–269): fetch with
`muteHttpExceptions`, then branch solely on `statusCode === 200`; both branches
only log.  The reply is the environment's behaviour for this request. -/
def postToSlack (reply : WebhookReply) (webhookUrl text : String) : List LogEntry :=
  let _ := webhookUrl
  let _ := text
  if reply.status = 200 then [.postSuccess]
  else [.postFailure reply.status reply.body]

/-- The three script properties read at lines 26–28; `getProperty` yields
`null` for a missing key. -/
structure ScriptProps where
  userToken : Option String
  userId : Option String
  webhookUrl : Option String
deriving DecidableEq, Repr

/-- The whole environment one run of `reportYesterdayMentions` interacts with:
the property store, the search API's reply per page, the webhook's reply, and
the two date strings `Utilities.formatDate` produced for yesterday and
today. -/
structure ReportEnv where
  props : ScriptProps
  api : Nat → SlackApiReply
  webhook : WebhookReply
  dateString : String
  todayString : String

/-- The search query template of line 46. -/
def buildQuery (userId dateString todayString : String) : String :=
  "(to:me OR <@" ++ userId ++ "> OR \"Taichi Yoda\" OR \"依田太一\") after:" ++
    dateString ++ " before:" ++ todayString

/-- The short not-found message of line 54. -/
def notFoundMessage (dateString : String) : String :=
  "昨日（" ++ dateString ++ "）のメンションは検索で見つかりませんでした。詳細な設定やログを確認してください。☕"

/-- The full report of lines 62–67: header, count line, one bullet per
channel, footer, joined by newlines. -/
def buildReport (dateString : String) (count : Nat) (channelList : List ChannelSummary) :
    String :=
  String.intercalate "\n"
    (["📅 *昨日（" ++ dateString ++ "）のメンション集計*",
      "以下のチャンネルでメンションが届いていました（合計 " ++ toString count ++ " 件）：\n"] ++
      channelList.map (fun ch =>
        "• #" ++ ch.name ++ " (<https://slack.com/archives/" ++ ch.id ++ "|開く>)") ++
      ["\n確認漏れがないかチェックしましょう！🚀"])

/-- What one run of the entry function produced: normal return or an escaped
exception, the log, and the texts handed to `postToSlack`, in order. -/
structure RunOutcome where
  result : Except JsError Unit
  log : List LogEntry
  posted : List String
deriving Repr

/-- `reportYesterdayMentions` (lines 24–71): validate the three properties
(JS truthiness, so an empty string is as bad as a missing key), build the
query, run the paginated search, and either post the not-found message or the
aggregated report.  An exception escaping `searchSlackMessages` escapes the
entry function, nothing after the search runs in that case. -/
def reportYesterdayMentions (env : ReportEnv) : RunOutcome :=
  let userToken := env.props.userToken
  let userId := env.props.userId
  let webhookUrl := env.props.webhookUrl
  if !jsTruthy userToken || !jsTruthy userId || !jsTruthy webhookUrl then
    ⟨.ok (), [.configError], []⟩
  else
    let query := buildQuery (userId.getD "") env.dateString env.todayString
    let log0 : List LogEntry := [.queryInitiated query]
    let out := searchSlackMessages env.api (userToken.getD "") query
    match out.result with
    | .error e => ⟨.error e, log0 ++ out.log, []⟩
    | .ok messages =>
      if messages.length = 0 then
        let text := notFoundMessage env.dateString
        ⟨.ok (),
          log0 ++ out.log ++ [.noMessages] ++
            postToSlack env.webhook (webhookUrl.getD "") text,
          [text]⟩
      else
        let channelList := aggregateMentions messages
        let text := buildReport env.dateString messages.length channelList
        ⟨.ok (),
          log0 ++ out.log ++ postToSlack env.webhook (webhookUrl.getD "") text,
          [text]⟩

/-- One installed trigger of the project, reduced to what the code reads and
writes: its handler name and the daily-schedule parameters used at lines
179–183. -/
structure Trigger where
  handlerFunction : String
  atHour : Option Nat := none
  everyDays : Option Nat := none
deriving DecidableEq, Repr

/-- The trigger built by `ScriptApp.newTrigger('reportYesterdayMentions')
.timeBased().atHour(8).everyDays(1).create()`. -/
def dailyMentionTrigger : Trigger :=
  ⟨"reportYesterdayMentions", some 8, some 1⟩

/-- `setDailyMentionTrigger` (lines 169–186) acting on the project's trigger
list: delete every trigger whose handler is `reportYesterdayMentions`, then
append the one new daily trigger.  Returns the new list and the log. -/
def setDailyMentionTrigger (triggers : List Trigger) : List Trigger × List LogEntry :=
  (triggers.filter (fun t => t.handlerFunction ≠ "reportYesterdayMentions") ++
      [dailyMentionTrigger],
    [.triggerInstalled])

/-! ## Specification-side helper definitions

These restate pieces of the program's behaviour for use in theorem
statements; they are not translations of further source code. -/

/-- The `(id, resolved name)` pair a match contributes to the channel map, or
`none` when the guard `if (msg.channel && msg.channel.id)` skips it. -/
def keptEntry (m : MessageMatch) : Option (String × String) :=
  match m.channel with
  | none => none
  | some ch =>
    match ch.id with
    | none => none
    | some cid => if cid = "" then none else some (cid, resolvedName ch cid)

/-- The channel ids the aggregation keeps, in input order, duplicates kept. -/
def keptIds (messages : List MessageMatch) : List String :=
  (messages.filterMap keptEntry).map Prod.fst

/-- `m 1 ++ m 2 ++ … ++ m n`, associated the way the loop accumulates. -/
def pagesConcat (m : Nat → List MessageMatch) : Nat → List MessageMatch
  | 0 => []
  | n + 1 => pagesConcat m n ++ m (n + 1)

/-- `[1, 2, …, n]`, the requests the loop issues when it reaches page `n`. -/
def pagesList : Nat → List Nat
  | 0 => []
  | n + 1 => pagesList n ++ [n + 1]

/-! ### Concrete environments used by counterexamples and witnesses -/

/-- A well-formed match used by the concrete environments below. -/
def mmC : MessageMatch := ⟨some ⟨some "C", some "general"⟩, some "hello"⟩

/-- Every page answers ok; page 1 reports `page_count = 3` with 100 matches,
page 2 returns 100 matches but reports `page_count = 1`, page 3 would return
37 matches. -/
def apiC1ce : Nat → SlackApiReply := fun p =>
  if p = 1 then .success (List.replicate 100 mmC) 3 237
  else if p = 2 then .success (List.replicate 100 mmC) 1 237
  else .success (List.replicate 37 mmC) 3 237

/-- Pages 1–3 answer ok with 100/100/37 matches, all reporting
`page_count = 3`. -/
def apiThreeW : Nat → SlackApiReply := fun p =>
  if p = 1 then .success (List.replicate 100 mmC) 3 237
  else if p = 2 then .success (List.replicate 100 mmC) 3 237
  else .success (List.replicate 37 mmC) 3 237

/-- Every page answers ok with one match and reports `page_count = 10`. -/
def apiCapW : Nat → SlackApiReply := fun _ => .success [mmC] 10 60

/-- Every page answers ok with one match and reports `page_count = 5`. -/
def apiPc5W : Nat → SlackApiReply := fun _ => .success [mmC] 5 5

/-- Page 1 answers ok with `page_count = 1`; page 2 would answer
`ok:false`. -/
def apiC3ce : Nat → SlackApiReply := fun p =>
  if p = 1 then .success [mmC] 1 1 else .failure (some "boom")

/-- Page 1 answers ok with `page_count = 3`; page 2 answers
`ok:false, error:"invalid_auth"`. -/
def apiFailW : Nat → SlackApiReply := fun p =>
  if p = 1 then .success [mmC] 3 1 else .failure (some "invalid_auth")

/-- Configuration complete, but every search page returns a body that
`JSON.parse` rejects. -/
def envBadJson : ReportEnv :=
  ⟨⟨some "xoxp-token", some "U123", some "https://hooks.example/x"⟩,
    fun _ => .malformed, ⟨200, "ok"⟩, "2026-10-10", "2026-10-11"⟩

/-- Configuration complete, search fails cleanly (`ok:false`), webhook
answers 200. -/
def envCleanW : ReportEnv :=
  ⟨⟨some "xoxp-token", some "U123", some "https://hooks.example/x"⟩,
    fun _ => .failure (some "ratelimited"), ⟨200, "ok"⟩, "2026-10-10", "2026-10-11"⟩

/-! ## Order properties of the modelled collation -/

theorem char_eq_of_toNat_eq {a b : Char} (h : a.toNat = b.toNat) : a = b := by
  apply Char.eq_of_val_eq
  cases hva : a.val with | mk x =>
  cases hvb : b.val with | mk y =>
  congr 1
  apply BitVec.toNat_injective
  simpa [Char.toNat, hva, hvb, UInt32.toNat] using h

theorem lexLe_total : ∀ as bs : List Char, lexLe as bs = true ∨ lexLe bs as = true
  | [], _ => by left; rfl
  | _ :: _, [] => by right; rfl
  | a :: as, b :: bs => by
    simp only [lexLe]
    rcases Nat.lt_trichotomy a.toNat b.toNat with h | h | h
    · left; simp [h]
    · have ih := lexLe_total as bs
      simp only [h, Nat.lt_irrefl, if_false]
      simpa using ih
    · right; simp [h]

theorem lexLe_trans : ∀ as bs cs : List Char,
    lexLe as bs = true → lexLe bs cs = true → lexLe as cs = true
  | [], _, _, _, _ => rfl
  | _ :: _, [], _, h1, _ => by simp [lexLe] at h1
  | _ :: _, _ :: _, [], _, h2 => by simp [lexLe] at h2
  | a :: as, b :: bs, c :: cs, h1, h2 => by
    simp only [lexLe] at h1 h2 ⊢
    split_ifs at h1 h2 ⊢ <;>
      first
        | rfl
        | omega
        | exact lexLe_trans as bs cs h1 h2

theorem lexLe_antisymm : ∀ as bs : List Char,
    lexLe as bs = true → lexLe bs as = true → as = bs
  | [], [], _, _ => rfl
  | [], _ :: _, _, h2 => by simp [lexLe] at h2
  | _ :: _, [], h1, _ => by simp [lexLe] at h1
  | a :: as, b :: bs, h1, h2 => by
    simp only [lexLe] at h1 h2
    by_cases hab : a.toNat < b.toNat
    · rw [if_neg (by omega), if_pos hab] at h2
      exact absurd h2 (by simp)
    · by_cases hba : b.toNat < a.toNat
      · rw [if_neg hab, if_pos hba] at h1
        exact absurd h1 (by simp)
      · rw [if_neg hab, if_neg hba] at h1
        rw [if_neg hba, if_neg hab] at h2
        have hcl : a = b := char_eq_of_toNat_eq (by omega)
        subst hcl
        rw [lexLe_antisymm as bs h1 h2]

theorem strLe_total (a b : String) : strLe a b = true ∨ strLe b a = true :=
  lexLe_total a.data b.data

theorem strLe_trans {a b c : String} (h1 : strLe a b = true) (h2 : strLe b c = true) :
    strLe a c = true :=
  lexLe_trans a.data b.data c.data h1 h2

theorem strLe_antisymm {a b : String} (h1 : strLe a b = true) (h2 : strLe b a = true) :
    a = b :=
  String.ext (lexLe_antisymm a.data b.data h1 h2)

instance : IsTotal ChannelSummary chanLe :=
  ⟨fun a b => strLe_total a.name b.name⟩

instance : IsTrans ChannelSummary chanLe :=
  ⟨fun _ _ _ h1 h2 => strLe_trans h1 h2⟩

/-! ## The channel map: `mapSet` and the fold over the matches -/

theorem mapSet_lookup : ∀ (m : List (String × String)) (k v k' : String),
    (mapSet m k v).lookup k' = if k' = k then some v else m.lookup k'
  | [], k, v, k' => by
    by_cases h : k' = k
    · subst h; simp [mapSet, List.lookup_cons]
    · simp [mapSet, List.lookup_cons, beq_false_of_ne h, h]
  | (a, b) :: rest, k, v, k' => by
    simp only [mapSet]
    by_cases hak : a = k
    · subst hak
      by_cases h : k' = a
      · subst h; simp [List.lookup_cons]
      · simp [List.lookup_cons, beq_false_of_ne h, h]
    · rw [if_neg hak]
      by_cases h : k' = a
      · subst h
        rw [if_neg hak]
        simp [List.lookup_cons]
      · rw [List.lookup_cons, List.lookup_cons]
        simp only [beq_false_of_ne h]
        exact mapSet_lookup rest k v k'

theorem mapSet_keys : ∀ (m : List (String × String)) (k v : String),
    (mapSet m k v).map Prod.fst =
      if k ∈ m.map Prod.fst then m.map Prod.fst else m.map Prod.fst ++ [k]
  | [], k, v => by simp [mapSet]
  | (a, b) :: rest, k, v => by
    simp only [mapSet]
    by_cases hak : a = k
    · subst hak; simp
    · simp only [if_neg hak, List.map_cons, mapSet_keys rest k v, List.mem_cons]
      by_cases h : k ∈ rest.map Prod.fst
      · simp [h]
      · simp [h, Ne.symm hak]

theorem mapSet_keys_nodup {m : List (String × String)} (k v : String)
    (h : (m.map Prod.fst).Nodup) : ((mapSet m k v).map Prod.fst).Nodup := by
  rw [mapSet_keys]
  by_cases hk : k ∈ m.map Prod.fst
  · simpa [hk]
  · simpa [hk] using List.Nodup.append h (List.nodup_singleton k) (by simpa using hk)

theorem mapSet_mem_keys (m : List (String × String)) (k v k' : String) :
    k' ∈ (mapSet m k v).map Prod.fst ↔ k' ∈ m.map Prod.fst ∨ k' = k := by
  rw [mapSet_keys]
  by_cases hk : k ∈ m.map Prod.fst
  · simp only [if_pos hk]
    constructor
    · exact fun h => Or.inl h
    · rintro (h | rfl)
      · exact h
      · exact hk
  · simp [if_neg hk]

theorem forEachBody_eq (channelMap : List (String × String)) (msg : MessageMatch) :
    forEachBody channelMap msg =
      match keptEntry msg with
      | none => channelMap
      | some (cid, nm) => mapSet channelMap cid nm := by
  rcases msg with ⟨ch, t⟩
  rcases ch with _ | ⟨cid, nm⟩
  · rfl
  · rcases cid with _ | cid
    · rfl
    · by_cases h : cid = "" <;> simp [forEachBody, keptEntry, h]

theorem foldl_forEachBody_lookup : ∀ (messages : List MessageMatch)
    (acc : List (String × String)) (cid : String),
    (messages.foldl forEachBody acc).lookup cid =
      ((messages.filterMap keptEntry).reverse.lookup cid).or (acc.lookup cid)
  | [], acc, cid => by simp
  | msg :: rest, acc, cid => by
    rw [List.foldl_cons, foldl_forEachBody_lookup rest, forEachBody_eq,
      List.filterMap_cons]
    cases hke : keptEntry msg with
    | none => simp
    | some p =>
      rcases p with ⟨k, v⟩
      rw [List.reverse_cons, List.lookup_append, mapSet_lookup]
      by_cases h : cid = k
      · subst h; simp [Option.or_assoc, List.lookup_cons]
      · simp [Option.or_assoc, List.lookup_cons, h,
          beq_false_of_ne h]

theorem foldl_forEachBody_mem_keys : ∀ (messages : List MessageMatch)
    (acc : List (String × String)) (cid : String),
    cid ∈ (messages.foldl forEachBody acc).map Prod.fst ↔
      cid ∈ acc.map Prod.fst ∨ cid ∈ keptIds messages
  | [], acc, cid => by simp [keptIds]
  | msg :: rest, acc, cid => by
    rw [List.foldl_cons, foldl_forEachBody_mem_keys rest, forEachBody_eq]
    cases hke : keptEntry msg with
    | none => simp [keptIds, List.filterMap_cons, hke]
    | some p =>
      rcases p with ⟨k, v⟩
      rw [mapSet_mem_keys]
      simp only [keptIds, List.filterMap_cons, hke, List.map_cons, List.mem_cons]
      tauto

theorem foldl_forEachBody_keys_nodup : ∀ (messages : List MessageMatch)
    (acc : List (String × String)),
    (acc.map Prod.fst).Nodup → ((messages.foldl forEachBody acc).map Prod.fst).Nodup
  | [], _, h => h
  | msg :: rest, acc, h => by
    rw [List.foldl_cons, forEachBody_eq]
    cases hke : keptEntry msg with
    | none => exact foldl_forEachBody_keys_nodup rest acc h
    | some p =>
      rcases p with ⟨k, v⟩
      exact foldl_forEachBody_keys_nodup rest _ (mapSet_keys_nodup k v h)

theorem buildChannelMap_lookup (messages : List MessageMatch) (cid : String) :
    (buildChannelMap messages).lookup cid =
      (messages.filterMap keptEntry).reverse.lookup cid := by
  rw [buildChannelMap, foldl_forEachBody_lookup]
  simp

theorem buildChannelMap_mem_keys (messages : List MessageMatch) (cid : String) :
    cid ∈ (buildChannelMap messages).map Prod.fst ↔ cid ∈ keptIds messages := by
  rw [buildChannelMap, foldl_forEachBody_mem_keys]
  simp

theorem buildChannelMap_keys_nodup (messages : List MessageMatch) :
    ((buildChannelMap messages).map Prod.fst).Nodup :=
  foldl_forEachBody_keys_nodup messages [] (by simp)

theorem lookup_eq_some_of_mem_of_nodup :
    ∀ {l : List (String × String)} {k v : String},
    (l.map Prod.fst).Nodup → (k, v) ∈ l → l.lookup k = some v
  | [], _, _, _, hm => by simp at hm
  | (a, b) :: rest, k, v, hnd, hm => by
    rw [List.map_cons, List.nodup_cons] at hnd
    rcases List.mem_cons.mp hm with h | h
    · cases h
      simp [List.lookup_cons]
    · have hka : k ≠ a := by
        rintro rfl
        exact hnd.1 (by simpa using List.mem_map_of_mem Prod.fst h)
      rw [List.lookup_cons]
      simp only [beq_false_of_ne hka]
      exact lookup_eq_some_of_mem_of_nodup hnd.2 h

theorem mem_of_lookup_eq_some {l : List (String × String)} {k v : String}
    (h : l.lookup k = some v) : (k, v) ∈ l := by
  rcases List.lookup_eq_some_iff.mp h with ⟨l₁, l₂, rfl, -⟩
  simp

/-! ## Aggregation lemmas -/

theorem keptEntry_eq_some_iff {m : MessageMatch} {cid nm : String} :
    keptEntry m = some (cid, nm) ↔
      ∃ ch : Channel, m.channel = some ch ∧ ch.id = some cid ∧ cid ≠ "" ∧
        nm = resolvedName ch cid := by
  rcases m with ⟨ch, t⟩
  rcases ch with _ | ⟨cido, nmo⟩
  · simp [keptEntry]
  · rcases cido with _ | cid'
    · simp [keptEntry]
    · by_cases h : cid' = ""
      · subst h
        simp only [keptEntry, if_pos rfl]
        constructor
        · intro h
          cases h
        · rintro ⟨ch', hch, hid, hcid, -⟩
          cases hch
          cases hid
          exact (hcid rfl).elim
      · simp only [keptEntry, if_neg h, Option.some.injEq, Prod.mk.injEq]
        constructor
        · rintro ⟨rfl, rfl⟩
          exact ⟨⟨some cid', nmo⟩, rfl, rfl, h, rfl⟩
        · rintro ⟨ch', hch', hid', -, rfl⟩
          cases hch'
          cases hid'
          exact ⟨rfl, rfl⟩

theorem resolvedName_of_not_truthy {ch : Channel} {cid : String}
    (h : jsTruthy ch.name = false) : resolvedName ch cid = "private-channel-" ++ cid := by
  cases hn : ch.name with
  | none => simp [resolvedName, hn]
  | some n =>
    rw [hn] at h
    simp only [jsTruthy, bne_eq_false_iff_eq] at h
    simp [resolvedName, hn, h]

theorem placeholder_ne_empty (cid : String) : "private-channel-" ++ cid ≠ "" := by
  intro h
  have hd := congrArg String.data h
  rw [String.data_append] at hd
  have h1 : ("private-channel-" : String).data = [] := (List.append_eq_nil.mp hd).1
  exact absurd h1 (by decide)

theorem resolvedName_ne_empty (ch : Channel) (cid : String) :
    resolvedName ch cid ≠ "" := by
  rcases ch with ⟨cido, nmo⟩
  rcases nmo with _ | n
  · exact placeholder_ne_empty cid
  · by_cases h : n = ""
    · simpa [resolvedName, h] using placeholder_ne_empty cid
    · simp [resolvedName, h]

theorem aggregateMentions_perm (messages : List MessageMatch) :
    (aggregateMentions messages).Perm
      ((buildChannelMap messages).map fun p => ChannelSummary.mk p.1 p.2) :=
  List.perm_insertionSort chanLe _

theorem mapped_map_id (messages : List MessageMatch) :
    (((buildChannelMap messages).map fun p => ChannelSummary.mk p.1 p.2).map
        ChannelSummary.id) = (buildChannelMap messages).map Prod.fst := by
  rw [List.map_map]
  rfl

/-- Every record of the aggregation output is a binding of the channel map. -/
theorem mem_buildChannelMap_of_mem_aggregate {messages : List MessageMatch}
    {s : ChannelSummary} (hs : s ∈ aggregateMentions messages) :
    (s.id, s.name) ∈ buildChannelMap messages := by
  have hsm := (aggregateMentions_perm messages).mem_iff.mp hs
  rcases List.mem_map.mp hsm with ⟨p, hp, rfl⟩
  simpa using hp

/-- Every binding of the channel map comes from a kept match, carrying its
resolved name. -/
theorem mem_filterMap_of_mem_buildChannelMap {messages : List MessageMatch}
    {cid nm : String} (h : (cid, nm) ∈ buildChannelMap messages) :
    (cid, nm) ∈ messages.filterMap keptEntry := by
  have hlk : (buildChannelMap messages).lookup cid = some nm :=
    lookup_eq_some_of_mem_of_nodup (buildChannelMap_keys_nodup messages) h
  rw [buildChannelMap_lookup] at hlk
  exact List.mem_reverse.mp (mem_of_lookup_eq_some hlk)

/-- C4: `aggregateMentions` yields exactly one `ChannelSummary` per distinct
channel id among the kept matches (matches lacking a channel or a channel id
contribute nothing): the output ids are duplicate-free, they are exactly the
kept ids, their number is the number of distinct kept ids, and the name
attached to an id is the resolved name of the last match with that id in
input order. -/
theorem aggregateMentions_unique_per_channel_id (messages : List MessageMatch) :
    ((aggregateMentions messages).map ChannelSummary.id).Nodup
    ∧ (∀ cid : String,
        cid ∈ (aggregateMentions messages).map ChannelSummary.id ↔
          cid ∈ keptIds messages)
    ∧ (aggregateMentions messages).length = (keptIds messages).dedup.length
    ∧ ∀ s ∈ aggregateMentions messages,
        (messages.filterMap keptEntry).reverse.lookup s.id = some s.name := by
  have hperm := aggregateMentions_perm messages
  have hid : ((aggregateMentions messages).map ChannelSummary.id).Perm
      ((buildChannelMap messages).map Prod.fst) := by
    rw [← mapped_map_id messages]
    exact hperm.map _
  have hnodup := buildChannelMap_keys_nodup messages
  refine ⟨hid.nodup_iff.mpr hnodup, ?_, ?_, ?_⟩
  · intro cid
    rw [hid.mem_iff, buildChannelMap_mem_keys]
  · have hkeys : ((buildChannelMap messages).map Prod.fst).Perm
        (keptIds messages).dedup := by
      rw [List.perm_ext_iff_of_nodup hnodup (List.nodup_dedup _)]
      intro a
      rw [buildChannelMap_mem_keys, List.mem_dedup]
    have hlen : (aggregateMentions messages).length =
        ((buildChannelMap messages).map Prod.fst).length := by
      rw [hperm.length_eq]
      simp
    rw [hlen, hkeys.length_eq]
  · intro s hs
    have hmem := mem_buildChannelMap_of_mem_aggregate hs
    have hlk := lookup_eq_some_of_mem_of_nodup hnodup hmem
    rw [buildChannelMap_lookup] at hlk
    exact hlk

/-- Witness for C4 at a concrete input: two matches share the id `1` with
names `a` then `c`, one match has id `2`, one match has no channel; the
output pairs id `1` with the last name `c`. -/
theorem aggregateMentions_unique_per_channel_id_witness :
    ChannelSummary.mk "1" "c" ∈
        aggregateMentions
          [⟨some ⟨some "1", some "a"⟩, some "t"⟩, ⟨some ⟨some "2", some "b"⟩, some "t"⟩,
            ⟨some ⟨some "1", some "c"⟩, some "t"⟩, ⟨none, none⟩]
    ∧ ([⟨some ⟨some "1", some "a"⟩, some "t"⟩, ⟨some ⟨some "2", some "b"⟩, some "t"⟩,
          ⟨some ⟨some "1", some "c"⟩, some "t"⟩,
          (⟨none, none⟩ : MessageMatch)].filterMap keptEntry).reverse.lookup "1" =
        some "c" := by
  refine ⟨by decide, ?_⟩
  exact (aggregateMentions_unique_per_channel_id _).2.2.2 ⟨"1", "c"⟩ (by decide)

/-- C6 counterexample: a match with channel id `C1` and no resolvable name is
followed by a later match with the same id and the name `general`; the output
holds no `ChannelSummary` named `private-channel-C1`, so "for every match with
a channel id but no resolvable name, `aggregateMentions` produces a
`ChannelSummary` named `private-channel-<id>`" fails as stated (the later
name overwrites the placeholder, as C4's last-write-wins rule dictates). -/
theorem aggregateMentions_placeholder_overridden :
    aggregateMentions
        [⟨some ⟨some "C1", none⟩, some "t"⟩, ⟨some ⟨some "C1", some "general"⟩, some "t"⟩] =
      [⟨"C1", "general"⟩]
    ∧ ChannelSummary.mk "C1" "private-channel-C1" ∉
        aggregateMentions
          [⟨some ⟨some "C1", none⟩, some "t"⟩,
            ⟨some ⟨some "C1", some "general"⟩, some "t"⟩] := by
  constructor <;> decide

/-- C6 amended: a match with a channel id but no resolvable name resolves to
`private-channel-<id>`, and when no match with that id resolves a name (in
particular when the match is the only one with its id) the output contains
the `ChannelSummary` named exactly `private-channel-<id>`; unconditionally,
every `ChannelSummary` in any output of `aggregateMentions` has a non-empty
name. -/
theorem aggregateMentions_placeholder (messages : List MessageMatch)
    (m : MessageMatch) (ch : Channel) (cid : String)
    (hm : m ∈ messages) (hch : m.channel = some ch) (hid : ch.id = some cid)
    (hcid : cid ≠ "")
    (hall : ∀ m' ∈ messages, ∀ ch' : Channel, m'.channel = some ch' →
        ch'.id = some cid → jsTruthy ch'.name = false) :
    ChannelSummary.mk cid ("private-channel-" ++ cid) ∈ aggregateMentions messages
    ∧ ∀ msgs : List MessageMatch, ∀ s ∈ aggregateMentions msgs, s.name ≠ "" := by
  constructor
  · have hke : keptEntry m = some (cid, resolvedName ch cid) :=
      keptEntry_eq_some_iff.mpr ⟨ch, hch, hid, hcid, rfl⟩
    have hkid : cid ∈ keptIds messages := by
      rw [keptIds, List.mem_map]
      exact ⟨(cid, resolvedName ch cid), List.mem_filterMap.mpr ⟨m, hm, hke⟩, rfl⟩
    have hkeys := (buildChannelMap_mem_keys messages cid).mpr hkid
    rcases List.mem_map.mp hkeys with ⟨p, hp, hp1⟩
    rcases p with ⟨cid', v⟩
    rw [show cid' = cid from hp1] at hp
    have hvm := mem_filterMap_of_mem_buildChannelMap hp
    rcases List.mem_filterMap.mp hvm with ⟨m', hm', hke'⟩
    rcases keptEntry_eq_some_iff.mp hke' with ⟨ch', hch', hid', -, rfl⟩
    have hnt := hall m' hm' ch' hch' hid'
    rw [resolvedName_of_not_truthy hnt] at hp
    rw [(aggregateMentions_perm messages).mem_iff]
    exact List.mem_map.mpr ⟨(cid, "private-channel-" ++ cid), hp, rfl⟩
  · intro msgs s hs
    have hmem := mem_buildChannelMap_of_mem_aggregate hs
    have hvm := mem_filterMap_of_mem_buildChannelMap hmem
    rcases List.mem_filterMap.mp hvm with ⟨m', -, hke'⟩
    rcases keptEntry_eq_some_iff.mp hke' with ⟨ch', -, -, -, hname⟩
    rw [hname]
    exact resolvedName_ne_empty ch' s.id

/-- Witness for the amended C6: a single match with id `C9` and no name
produces exactly the placeholder summary. -/
theorem aggregateMentions_placeholder_witness :
    ChannelSummary.mk "C9" "private-channel-C9" ∈
      aggregateMentions [⟨some ⟨some "C9", none⟩, some "t"⟩] :=
  (aggregateMentions_placeholder [⟨some ⟨some "C9", none⟩, some "t"⟩]
    ⟨some ⟨some "C9", none⟩, some "t"⟩ ⟨some "C9", none⟩ "C9"
    (by decide) rfl rfl (by decide)
    (by
      rintro m' hm' ch' hch' -
      rcases List.mem_singleton.mp hm' with rfl
      cases hch'
      rfl)).1

/-- Two sorted permutations of each other are equal, needing antisymmetry
only on the elements involved (`chanLe` is not antisymmetric globally:
distinct channels may share a name). -/
theorem eq_of_perm_of_sorted_antisymmOn :
    ∀ {l₁ l₂ : List ChannelSummary}, l₁.Perm l₂ →
      l₁.Pairwise chanLe → l₂.Pairwise chanLe →
      (∀ a ∈ l₁, ∀ b ∈ l₁, chanLe a b → chanLe b a → a = b) → l₁ = l₂
  | [], _, hp, _, _, _ => hp.nil_eq
  | _ :: _, [], hp, _, _, _ => by simpa using hp.length_eq
  | a :: t₁, b :: t₂, hp, hs₁, hs₂, hanti => by
    rcases List.pairwise_cons.mp hs₁ with ⟨ha1, hs₁'⟩
    rcases List.pairwise_cons.mp hs₂ with ⟨hb2, hs₂'⟩
    by_cases hab : a = b
    · subst hab
      rw [eq_of_perm_of_sorted_antisymmOn hp.cons_inv hs₁' hs₂'
        (fun x hx y hy => hanti x (List.mem_cons_of_mem a hx) y (List.mem_cons_of_mem a hy))]
    · exfalso
      have haT2 : a ∈ t₂ := by
        rcases List.mem_cons.mp (hp.mem_iff.mp (List.mem_cons_self a t₁)) with h | h
        · exact absurd h hab
        · exact h
      have hbT1 : b ∈ t₁ := by
        rcases List.mem_cons.mp (hp.mem_iff.mpr (List.mem_cons_self b t₂)) with h | h
        · exact absurd h.symm hab
        · exact h
      exact hab (hanti a (List.mem_cons_self a t₁) b (List.mem_cons_of_mem a hbT1)
        (ha1 b hbT1) (hb2 a haT2))

/-- C5 counterexample: the two orderings of two matches that share channel id
`1` with names `a` and `b` are permutations of one another (the same set of
matches), yet the outputs differ, because the name kept for an id is the last
one in input order.  The order-independence part of the claim is false. -/
theorem aggregateMentions_order_dependent :
    List.Perm
        [(⟨some ⟨some "1", some "a"⟩, some "t"⟩ : MessageMatch),
          ⟨some ⟨some "1", some "b"⟩, some "t"⟩]
        [⟨some ⟨some "1", some "b"⟩, some "t"⟩, ⟨some ⟨some "1", some "a"⟩, some "t"⟩]
    ∧ aggregateMentions
        [⟨some ⟨some "1", some "a"⟩, some "t"⟩, ⟨some ⟨some "1", some "b"⟩, some "t"⟩] =
        [⟨"1", "b"⟩]
    ∧ aggregateMentions
        [⟨some ⟨some "1", some "b"⟩, some "t"⟩, ⟨some ⟨some "1", some "a"⟩, some "t"⟩] =
        [⟨"1", "a"⟩]
    ∧ aggregateMentions
          [⟨some ⟨some "1", some "a"⟩, some "t"⟩, ⟨some ⟨some "1", some "b"⟩, some "t"⟩] ≠
        aggregateMentions
          [⟨some ⟨some "1", some "b"⟩, some "t"⟩, ⟨some ⟨some "1", some "a"⟩, some "t"⟩] := by
  refine ⟨?_, by decide, by decide, by decide⟩
  exact List.Perm.swap _ _ _

/-- C5 amended: the output of `aggregateMentions` is always sorted ascending
by name under the modelled locale comparison (stated as an inner universal,
unconditional in the provisos below); and two inputs that are permutations of
one another yield equal outputs provided kept matches sharing a channel id
resolve to the same name and kept matches with distinct channel ids resolve
to distinct names (the counterexample shows the equality fails without these
provisos). -/
theorem aggregateMentions_sorted_order_independent
    (msgs msgs' : List MessageMatch) (hperm : msgs.Perm msgs')
    (hname : ∀ p ∈ msgs.filterMap keptEntry, ∀ q ∈ msgs.filterMap keptEntry,
        p.1 = q.1 → p.2 = q.2)
    (hinj : ∀ p ∈ msgs.filterMap keptEntry, ∀ q ∈ msgs.filterMap keptEntry,
        p.2 = q.2 → p.1 = q.1) :
    (∀ l : List MessageMatch, (aggregateMentions l).Sorted chanLe)
    ∧ aggregateMentions msgs = aggregateMentions msgs' := by
  refine ⟨fun l => List.sorted_insertionSort chanLe _, ?_⟩
  have hE : (msgs.filterMap keptEntry).Perm (msgs'.filterMap keptEntry) :=
    hperm.filterMap keptEntry
  have hmemB : ∀ p : String × String,
      p ∈ buildChannelMap msgs ↔ p ∈ msgs.filterMap keptEntry := by
    rintro ⟨k, v⟩
    constructor
    · exact mem_filterMap_of_mem_buildChannelMap
    · intro h
      have hkid : k ∈ keptIds msgs := by
        rw [keptIds, List.mem_map]
        exact ⟨(k, v), h, rfl⟩
      have hkeys := (buildChannelMap_mem_keys msgs k).mpr hkid
      rcases List.mem_map.mp hkeys with ⟨⟨k', v'⟩, hp, hp1⟩
      rw [show k' = k from hp1] at hp
      have hv' := mem_filterMap_of_mem_buildChannelMap hp
      rw [show v' = v from hname (k, v') hv' (k, v) h rfl] at hp
      exact hp
  have hmemB' : ∀ p : String × String,
      p ∈ buildChannelMap msgs' ↔ p ∈ msgs.filterMap keptEntry := by
    rintro ⟨k, v⟩
    constructor
    · intro h
      exact hE.mem_iff.mpr (mem_filterMap_of_mem_buildChannelMap h)
    · intro h
      have h' := hE.mem_iff.mp h
      have hkid : k ∈ keptIds msgs' := by
        rw [keptIds, List.mem_map]
        exact ⟨(k, v), h', rfl⟩
      have hkeys := (buildChannelMap_mem_keys msgs' k).mpr hkid
      rcases List.mem_map.mp hkeys with ⟨⟨k', v'⟩, hp, hp1⟩
      rw [show k' = k from hp1] at hp
      have hv' := hE.mem_iff.mpr (mem_filterMap_of_mem_buildChannelMap hp)
      rw [show v' = v from hname (k, v') hv' (k, v) h rfl] at hp
      exact hp
  have hBB' : (buildChannelMap msgs).Perm (buildChannelMap msgs') := by
    rw [List.perm_ext_iff_of_nodup
      ((buildChannelMap_keys_nodup msgs).of_map)
      ((buildChannelMap_keys_nodup msgs').of_map)]
    intro p
    rw [hmemB p, hmemB' p]
  have haggperm : (aggregateMentions msgs).Perm (aggregateMentions msgs') :=
    ((aggregateMentions_perm msgs).trans (hBB'.map _)).trans
      (aggregateMentions_perm msgs').symm
  apply eq_of_perm_of_sorted_antisymmOn haggperm
    (List.sorted_insertionSort chanLe _) (List.sorted_insertionSort chanLe _)
  intro a ha b hb hle1 hle2
  have hnm : a.name = b.name := strLe_antisymm hle1 hle2
  have haE := mem_filterMap_of_mem_buildChannelMap
    (mem_buildChannelMap_of_mem_aggregate ha)
  have hbE := mem_filterMap_of_mem_buildChannelMap
    (mem_buildChannelMap_of_mem_aggregate hb)
  have hid : a.id = b.id := hinj (a.id, a.name) haE (b.id, b.name) hbE hnm
  cases a
  cases b
  simp_all

/-- Witness for the amended C5 at a concrete input: two matches with distinct
ids and distinct names, given in both orders, aggregate to the same sorted
list. -/
theorem aggregateMentions_sorted_order_independent_witness :
    (aggregateMentions
        [⟨some ⟨some "2", some "b"⟩, some "t"⟩, ⟨some ⟨some "1", some "a"⟩, some "t"⟩]).Sorted
        chanLe
    ∧ aggregateMentions
        [⟨some ⟨some "2", some "b"⟩, some "t"⟩, ⟨some ⟨some "1", some "a"⟩, some "t"⟩] =
      aggregateMentions
        [⟨some ⟨some "1", some "a"⟩, some "t"⟩, ⟨some ⟨some "2", some "b"⟩, some "t"⟩] := by
  have h := aggregateMentions_sorted_order_independent
    [⟨some ⟨some "2", some "b"⟩, some "t"⟩, ⟨some ⟨some "1", some "a"⟩, some "t"⟩]
    [⟨some ⟨some "1", some "a"⟩, some "t"⟩, ⟨some ⟨some "2", some "b"⟩, some "t"⟩]
    (List.Perm.swap _ _ _) (by decide) (by decide)
  exact ⟨h.1 _, h.2⟩

/-! ## Search-loop lemmas -/

theorem searchIter_malformed {api : Nat → SlackApiReply} {page : Nat}
    (fuel : Nat) (acc : List MessageMatch) (log : List LogEntry) (reqs : List Nat)
    (hapi : api page = .malformed) :
    searchIter api (fuel + 1) page acc log reqs =
      ⟨.error .jsonParse, log, reqs ++ [page]⟩ := by
  simp [searchIter, hapi]

theorem searchIter_failure {api : Nat → SlackApiReply} {page : Nat} {err : Option String}
    (fuel : Nat) (acc : List MessageMatch) (log : List LogEntry) (reqs : List Nat)
    (hapi : api page = .failure err) :
    searchIter api (fuel + 1) page acc log reqs =
      ⟨.ok acc,
        log ++ [.apiError err] ++
          (if err = some "invalid_auth" then [.invalidAuthNote] else []),
        reqs ++ [page]⟩ := by
  simp [searchIter, hapi]

theorem searchIter_success {api : Nat → SlackApiReply} {page : Nat}
    {ms : List MessageMatch} {pc tc : Nat} {es : List LogEntry}
    (fuel : Nat) (acc : List MessageMatch) (log : List LogEntry) (reqs : List Nat)
    (hapi : api page = .success ms pc tc)
    (hsam : samplePhase ms = .ok es) :
    searchIter api (fuel + 1) page acc log reqs =
      (if page + 1 > 5 then
        ⟨.ok (acc ++ ms),
          log ++ (if page = 1 then [.totalHits tc] else []) ++
            [.pageFound page ms.length] ++ es ++ [.pageLimitWarn],
          reqs ++ [page]⟩
      else if page + 1 ≤ pc then
        searchIter api fuel (page + 1) (acc ++ ms)
          (log ++ (if page = 1 then [.totalHits tc] else []) ++
            [.pageFound page ms.length] ++ es)
          (reqs ++ [page])
      else
        ⟨.ok (acc ++ ms),
          log ++ (if page = 1 then [.totalHits tc] else []) ++
            [.pageFound page ms.length] ++ es,
          reqs ++ [page]⟩) := by
  simp only [searchIter, hapi, hsam]

/-- The log lines the sample block can produce: nothing, or one sample line. -/
theorem samplePhase_entries {ms : List MessageMatch} {es : List LogEntry}
    (h : samplePhase ms = .ok es) :
    es = [] ∨ ∃ nm cid fr, es = [.sampleMatch nm cid fr] := by
  rcases ms with _ | ⟨m, rest⟩
  · left
    simpa [samplePhase] using h.symm
  · rcases m with ⟨ch, t⟩
    rcases ch with _ | ch
    · simp [samplePhase, sampleLog, Except.map] at h
    · rcases t with _ | t
      · simp [samplePhase, sampleLog, Except.map] at h
      · right
        refine ⟨ch.name, ch.id, t.take 30, ?_⟩
        simpa [samplePhase, sampleLog, Except.map] using h.symm

/-- The loop can only issue at most `fuel` further requests. -/
theorem searchIter_requests_length (api : Nat → SlackApiReply) :
    ∀ (fuel page : Nat) (acc : List MessageMatch) (log : List LogEntry)
      (reqs : List Nat),
    (searchIter api fuel page acc log reqs).requests.length ≤ reqs.length + fuel
  | 0, page, acc, log, reqs => by simp [searchIter]
  | fuel + 1, page, acc, log, reqs => by
    rcases hapi : api page with _ | err | ⟨ms, pc, tc⟩
    · rw [searchIter_malformed fuel acc log reqs hapi]
      simp
    · rw [searchIter_failure fuel acc log reqs hapi]
      simp
    · rcases hsp : samplePhase ms with e | es
      · simp only [searchIter, hapi, hsp]
        simp
      · rw [searchIter_success fuel acc log reqs hapi hsp]
        by_cases h5 : page + 1 > 5
        · rw [if_pos h5]
          simp
        · rw [if_neg h5]
          by_cases hpc : page + 1 ≤ pc
          · rw [if_pos hpc]
            refine le_trans
              (searchIter_requests_length api fuel (page + 1) (acc ++ ms) _
                (reqs ++ [page])) ?_
            simp only [List.length_append, List.length_cons, List.length_nil]
            omega
          · rw [if_neg hpc]
            simp

/-- The loop never throws when every reply parses and every page's first
match is well-formed. -/
theorem searchIter_result_ok (api : Nat → SlackApiReply)
    (hwf : ∀ p, api p ≠ .malformed)
    (hsam : ∀ p ms pc tc, api p = .success ms pc tc → (samplePhase ms).isOk = true) :
    ∀ (fuel page : Nat) (acc : List MessageMatch) (log : List LogEntry)
      (reqs : List Nat),
    ∃ msgs, (searchIter api fuel page acc log reqs).result = .ok msgs
  | 0, page, acc, log, reqs => ⟨acc, rfl⟩
  | fuel + 1, page, acc, log, reqs => by
    rcases hapi : api page with _ | err | ⟨ms, pc, tc⟩
    · exact absurd hapi (hwf page)
    · exact ⟨acc, by rw [searchIter_failure fuel acc log reqs hapi]⟩
    · rcases hsp : samplePhase ms with e | es
      · have := hsam page ms pc tc hapi
        rw [hsp] at this
        simp [Except.isOk, Except.toBool] at this
      · rw [searchIter_success fuel acc log reqs hapi hsp]
        by_cases h5 : page + 1 > 5
        · rw [if_pos h5]
          exact ⟨acc ++ ms, rfl⟩
        · rw [if_neg h5]
          by_cases hpc : page + 1 ≤ pc
          · rw [if_pos hpc]
            exact searchIter_result_ok api hwf hsam fuel (page + 1) (acc ++ ms) _ _
          · rw [if_neg hpc]
            exact ⟨acc ++ ms, rfl⟩

theorem searchSlackMessages_result_ok (api : Nat → SlackApiReply)
    (token query : String)
    (hwf : ∀ p, api p ≠ .malformed)
    (hsam : ∀ p ms pc tc, api p = .success ms pc tc → (samplePhase ms).isOk = true) :
    ∃ msgs, (searchSlackMessages api token query).result = .ok msgs := by
  obtain ⟨msgs, h⟩ :=
    searchIter_result_ok api hwf hsam 5 1 [] [.startSearch query] []
  refine ⟨msgs, ?_⟩
  rw [searchSlackMessages]
  simp only [h]

/-- C2: against an API that always answers ok (with well-formed matches, at
most 100 per page as the `count=100` request makes the real API do) and always
reports a page count greater than 5, `searchSlackMessages` issues exactly the
5 requests for pages 1–5, logs the cap warning, never requests page 6, and
returns the matches of pages 1–5 (at most 500); moreover for every environment
whatsoever the loop issues at most 5 requests. -/
theorem searchSlackMessages_page_cap
    (api : Nat → SlackApiReply) (token query : String)
    (m : Nat → List MessageMatch) (pc tc : Nat → Nat) (es : Nat → List LogEntry)
    (hok : ∀ p, api p = .success (m p) (pc p) (tc p))
    (hsam : ∀ p, samplePhase (m p) = .ok (es p))
    (hpc : ∀ p, 5 < pc p)
    (hlen : ∀ p, (m p).length ≤ 100) :
    (searchSlackMessages api token query).requests = [1, 2, 3, 4, 5]
    ∧ LogEntry.pageLimitWarn ∈ (searchSlackMessages api token query).log
    ∧ (searchSlackMessages api token query).result = .ok (pagesConcat m 5)
    ∧ (pagesConcat m 5).length ≤ 500
    ∧ ∀ (api' : Nat → SlackApiReply) (token' query' : String),
        (searchSlackMessages api' token' query').requests.length ≤ 5 := by
  have h2 : 2 ≤ pc 1 := by have := hpc 1; omega
  have h3 : 3 ≤ pc 2 := by have := hpc 2; omega
  have h4 : 4 ≤ pc 3 := by have := hpc 3; omega
  have h5 : 5 ≤ pc 4 := by have := hpc 4; omega
  have hrun : searchSlackMessages api token query =
      ⟨.ok (m 1 ++ (m 2 ++ (m 3 ++ (m 4 ++ m 5)))),
        .startSearch query :: .totalHits (tc 1) :: .pageFound 1 (m 1).length ::
          (es 1 ++ (.pageFound 2 (m 2).length ::
            (es 2 ++ (.pageFound 3 (m 3).length ::
              (es 3 ++ (.pageFound 4 (m 4).length ::
                (es 4 ++ (.pageFound 5 (m 5).length ::
                  (es 5 ++ [.pageLimitWarn,
                    .completed (m 1 ++ (m 2 ++ (m 3 ++ (m 4 ++ m 5)))).length]))))))))),
        [1, 2, 3, 4, 5]⟩ := by
    simp [searchSlackMessages, searchIter, hok, hsam, h2, h3, h4, h5]
  refine ⟨by rw [hrun], by rw [hrun]; simp, by rw [hrun]; simp [pagesConcat], ?_, ?_⟩
  · have l1 := hlen 1
    have l2 := hlen 2
    have l3 := hlen 3
    have l4 := hlen 4
    have l5 := hlen 5
    simp [pagesConcat]
    omega
  · intro api' token' query'
    have hb := searchIter_requests_length api' 5 1 [] [.startSearch query'] []
    simp only [searchSlackMessages]
    split <;> simpa using hb

/-- Witness for C2: the concrete API answering one match and `page_count = 10`
on every page is stopped after exactly pages 1–5 with the warning logged. -/
theorem searchSlackMessages_page_cap_witness :
    (searchSlackMessages apiCapW "tok" "q").requests = [1, 2, 3, 4, 5]
    ∧ LogEntry.pageLimitWarn ∈ (searchSlackMessages apiCapW "tok" "q").log
    ∧ (searchSlackMessages apiCapW "tok" "q").result =
        .ok (pagesConcat (fun _ => [mmC]) 5) := by
  have h := searchSlackMessages_page_cap apiCapW "tok" "q" (fun _ => [mmC])
    (fun _ => 10) (fun _ => 60)
    (fun _ => [.sampleMatch (some "general") (some "C") ("hello".take 30)])
    (fun _ => rfl) (fun _ => rfl) (fun _ => by show (5 : Nat) < 10; omega)
    (fun _ => by show ([mmC] : List MessageMatch).length ≤ 100; simp)
  exact ⟨h.1, h.2.1, h.2.2.1⟩

/-- C10: whenever the loop successfully fetches all of pages 1–5 (pages 1–4
keep it going by reporting a page count of at least the next page; page 5's
reported page count is arbitrary — in particular it may be exactly 5, in which
case nothing was left out), the cap branch fires: the warning is logged and
the loop exits before the `page <= pageCount` condition is re-checked, page 6
is never requested. -/
theorem searchSlackMessages_warns_after_five_pages
    (api : Nat → SlackApiReply) (token query : String)
    (m : Nat → List MessageMatch) (pc tc : Nat → Nat) (es : Nat → List LogEntry)
    (hok : ∀ p, 1 ≤ p → p ≤ 5 → api p = .success (m p) (pc p) (tc p))
    (hsam : ∀ p, 1 ≤ p → p ≤ 5 → samplePhase (m p) = .ok (es p))
    (hcont : ∀ p, 1 ≤ p → p < 5 → p + 1 ≤ pc p) :
    (searchSlackMessages api token query).requests = [1, 2, 3, 4, 5]
    ∧ LogEntry.pageLimitWarn ∈ (searchSlackMessages api token query).log
    ∧ (searchSlackMessages api token query).result = .ok (pagesConcat m 5) := by
  have k1 := hok 1 (by omega) (by omega)
  have k2 := hok 2 (by omega) (by omega)
  have k3 := hok 3 (by omega) (by omega)
  have k4 := hok 4 (by omega) (by omega)
  have k5 := hok 5 (by omega) (by omega)
  have s1 := hsam 1 (by omega) (by omega)
  have s2 := hsam 2 (by omega) (by omega)
  have s3 := hsam 3 (by omega) (by omega)
  have s4 := hsam 4 (by omega) (by omega)
  have s5 := hsam 5 (by omega) (by omega)
  have h2 := hcont 1 (by omega) (by omega)
  have h3 := hcont 2 (by omega) (by omega)
  have h4 := hcont 3 (by omega) (by omega)
  have h5 := hcont 4 (by omega) (by omega)
  have hrun : searchSlackMessages api token query =
      ⟨.ok (m 1 ++ (m 2 ++ (m 3 ++ (m 4 ++ m 5)))),
        .startSearch query :: .totalHits (tc 1) :: .pageFound 1 (m 1).length ::
          (es 1 ++ (.pageFound 2 (m 2).length ::
            (es 2 ++ (.pageFound 3 (m 3).length ::
              (es 3 ++ (.pageFound 4 (m 4).length ::
                (es 4 ++ (.pageFound 5 (m 5).length ::
                  (es 5 ++ [.pageLimitWarn,
                    .completed (m 1 ++ (m 2 ++ (m 3 ++ (m 4 ++ m 5)))).length]))))))))),
        [1, 2, 3, 4, 5]⟩ := by
    simp [searchSlackMessages, searchIter, k1, k2, k3, k4, k5, s1, s2, s3, s4, s5,
      h2, h3, h4, h5]
  exact ⟨by rw [hrun], by rw [hrun]; simp, by rw [hrun]; simp [pagesConcat]⟩

/-- Witness for C10 at `page_count` exactly 5: all five pages are fetched, the
warning is logged even though no matches were left out. -/
theorem searchSlackMessages_warns_after_five_pages_witness :
    (searchSlackMessages apiPc5W "tok" "q").requests = [1, 2, 3, 4, 5]
    ∧ LogEntry.pageLimitWarn ∈ (searchSlackMessages apiPc5W "tok" "q").log
    ∧ (searchSlackMessages apiPc5W "tok" "q").result =
        .ok (pagesConcat (fun _ => [mmC]) 5) :=
  searchSlackMessages_warns_after_five_pages apiPc5W "tok" "q" (fun _ => [mmC])
    (fun _ => 5) (fun _ => 5)
    (fun _ => [.sampleMatch (some "general") (some "C") ("hello".take 30)])
    (fun _ _ _ => rfl) (fun _ _ _ => rfl) (fun p _ h => by show p + 1 ≤ 5; omega)

set_option maxRecDepth 8000 in
/-- C1 counterexample: all pages answer ok, page 1 reports `page_count = 3`,
and pages 1, 2, 3 hold 100, 100, 37 matches — exactly the claim's hypotheses —
but page 2 reports `page_count = 1`; the loop re-reads the reported page count
after every page, so it stops after 2 requests with 200 matches instead of
issuing 3 requests and returning 237. -/
theorem searchSlackMessages_three_pages_counterexample :
    apiC1ce 1 = .success (List.replicate 100 mmC) 3 237
    ∧ apiC1ce 2 = .success (List.replicate 100 mmC) 1 237
    ∧ apiC1ce 3 = .success (List.replicate 37 mmC) 3 237
    ∧ (searchSlackMessages apiC1ce "tok" "q").requests = [1, 2]
    ∧ (searchSlackMessages apiC1ce "tok" "q").result =
        .ok (List.replicate 200 mmC) :=
  ⟨rfl, rfl, rfl, by decide, rfl⟩

/-- C1 amended: when pages 1–3 all answer ok with well-formed matches, all
report `page_count = 3`, and return 100, 100 and 37 matches respectively,
`searchSlackMessages` issues exactly the three requests for pages 1, 2, 3 in
order and returns the 237 matches concatenated in page order. -/
theorem searchSlackMessages_three_pages
    (api : Nat → SlackApiReply) (token query : String)
    (m1 m2 m3 : List MessageMatch) (es1 es2 es3 : List LogEntry) (tc1 tc2 tc3 : Nat)
    (h1 : api 1 = .success m1 3 tc1) (h2 : api 2 = .success m2 3 tc2)
    (h3 : api 3 = .success m3 3 tc3)
    (hs1 : samplePhase m1 = .ok es1) (hs2 : samplePhase m2 = .ok es2)
    (hs3 : samplePhase m3 = .ok es3)
    (hl1 : m1.length = 100) (hl2 : m2.length = 100) (hl3 : m3.length = 37) :
    (searchSlackMessages api token query).requests = [1, 2, 3]
    ∧ (searchSlackMessages api token query).result = .ok (m1 ++ (m2 ++ m3))
    ∧ (m1 ++ (m2 ++ m3)).length = 237 := by
  have hrun : searchSlackMessages api token query =
      ⟨.ok (m1 ++ (m2 ++ m3)),
        .startSearch query :: .totalHits tc1 :: .pageFound 1 m1.length ::
          (es1 ++ (.pageFound 2 m2.length ::
            (es2 ++ (.pageFound 3 m3.length ::
              (es3 ++ [.completed (m1 ++ (m2 ++ m3)).length]))))),
        [1, 2, 3]⟩ := by
    simp [searchSlackMessages, searchIter, h1, h2, h3, hs1, hs2, hs3]
  refine ⟨by rw [hrun], by rw [hrun], ?_⟩
  simp [hl1, hl2, hl3]

/-- Witness for the amended C1: the concrete three-page API with
`page_count = 3` throughout yields requests `[1, 2, 3]` and the 237
concatenated matches. -/
theorem searchSlackMessages_three_pages_witness :
    (searchSlackMessages apiThreeW "tok" "q").requests = [1, 2, 3]
    ∧ (searchSlackMessages apiThreeW "tok" "q").result =
        .ok (List.replicate 100 mmC ++ (List.replicate 100 mmC ++ List.replicate 37 mmC))
    ∧ (List.replicate 100 mmC ++
        (List.replicate 100 mmC ++ List.replicate 37 mmC)).length = 237 :=
  searchSlackMessages_three_pages apiThreeW "tok" "q"
    (List.replicate 100 mmC) (List.replicate 100 mmC) (List.replicate 37 mmC)
    [.sampleMatch (some "general") (some "C") ("hello".take 30)]
    [.sampleMatch (some "general") (some "C") ("hello".take 30)]
    [.sampleMatch (some "general") (some "C") ("hello".take 30)]
    237 237 237 rfl rfl rfl rfl rfl rfl (by simp) (by simp) (by simp)

set_option maxRecDepth 4000 in
/-- C3 counterexample: the API would answer `ok:false` on page 2 (`n = 2`,
satisfying `n ≥ 1`), but page 1 reported `page_count = 1`, so page 2 is never
requested: the run ends normally with page 1's matches and a log holding no
`apiError` line at all — the provider's error text is not logged, contradicting
the claim. -/
theorem searchSlackMessages_failure_aborts_counterexample :
    apiC3ce 2 = .failure (some "boom")
    ∧ (searchSlackMessages apiC3ce "tok" "q").requests = [1]
    ∧ (searchSlackMessages apiC3ce "tok" "q").log =
        [.startSearch "q", .totalHits 1, .pageFound 1 1,
          .sampleMatch (some "general") (some "C") ("hello".take 30), .completed 1] :=
  ⟨rfl, by decide, by decide⟩

/-- C3 amended: if the loop actually requests page `n` and the reply there has
`ok:false` — which requires `1 ≤ n ≤ 5`, pages `1..n-1` answering ok with
well-formed matches, and each of those pages reporting a page count of at
least the next page — then the run logs the provider's error text, logs the
distinguished invalid-auth line exactly when the error is `invalid_auth`,
requests no page beyond `n`, and returns normally (never throwing) with
exactly the matches of pages `1..n-1` (none when `n = 1`). -/
theorem searchSlackMessages_failure_aborts
    (api : Nat → SlackApiReply) (token query : String) (n : Nat)
    (m : Nat → List MessageMatch) (pc tc : Nat → Nat) (es : Nat → List LogEntry)
    (err : Option String)
    (hn1 : 1 ≤ n) (hn5 : n ≤ 5)
    (hok : ∀ p, 1 ≤ p → p < n → api p = .success (m p) (pc p) (tc p))
    (hsam : ∀ p, 1 ≤ p → p < n → samplePhase (m p) = .ok (es p))
    (hcont : ∀ p, 1 ≤ p → p < n → p + 1 ≤ pc p)
    (hfail : api n = .failure err) :
    (searchSlackMessages api token query).requests = pagesList n
    ∧ (searchSlackMessages api token query).result = .ok (pagesConcat m (n - 1))
    ∧ LogEntry.apiError err ∈ (searchSlackMessages api token query).log
    ∧ (LogEntry.invalidAuthNote ∈ (searchSlackMessages api token query).log ↔
        err = some "invalid_auth") := by
  interval_cases n
  · have hrun : searchSlackMessages api token query =
        ⟨.ok [],
          .startSearch query :: .apiError err ::
            ((if err = some "invalid_auth" then [.invalidAuthNote] else []) ++
              [.completed 0]),
          [1]⟩ := by
      simp [searchSlackMessages, searchIter, hfail]
    rw [hrun]
    refine ⟨by simp [pagesList], by simp [pagesConcat], by simp, ?_⟩
    by_cases hiv : err = some "invalid_auth" <;> simp [hiv]
  · have k1 := hok 1 (by omega) (by omega)
    have s1 := hsam 1 (by omega) (by omega)
    have c1 := hcont 1 (by omega) (by omega)
    have hrun : searchSlackMessages api token query =
        ⟨.ok (m 1),
          .startSearch query :: .totalHits (tc 1) :: .pageFound 1 (m 1).length ::
            (es 1 ++ (.apiError err ::
              ((if err = some "invalid_auth" then [.invalidAuthNote] else []) ++
                [.completed (m 1).length]))),
          [1, 2]⟩ := by
      simp [searchSlackMessages, searchIter, k1, s1, c1, hfail]
    rw [hrun]
    refine ⟨by simp [pagesList], by simp [pagesConcat], by simp, ?_⟩
    rcases samplePhase_entries s1 with he1 | ⟨nm1, cid1, fr1, he1⟩ <;>
      (rw [he1]; by_cases hiv : err = some "invalid_auth" <;> simp [hiv])
  · have k1 := hok 1 (by omega) (by omega)
    have k2 := hok 2 (by omega) (by omega)
    have s1 := hsam 1 (by omega) (by omega)
    have s2 := hsam 2 (by omega) (by omega)
    have c1 := hcont 1 (by omega) (by omega)
    have c2 := hcont 2 (by omega) (by omega)
    have hrun : searchSlackMessages api token query =
        ⟨.ok (m 1 ++ m 2),
          .startSearch query :: .totalHits (tc 1) :: .pageFound 1 (m 1).length ::
            (es 1 ++ (.pageFound 2 (m 2).length ::
              (es 2 ++ (.apiError err ::
                ((if err = some "invalid_auth" then [.invalidAuthNote] else []) ++
                  [.completed (m 1 ++ m 2).length]))))),
          [1, 2, 3]⟩ := by
      simp [searchSlackMessages, searchIter, k1, k2, s1, s2, c1, c2, hfail]
    rw [hrun]
    refine ⟨by simp [pagesList], by simp [pagesConcat], by simp, ?_⟩
    rcases samplePhase_entries s1 with he1 | ⟨nm1, cid1, fr1, he1⟩ <;>
      rcases samplePhase_entries s2 with he2 | ⟨nm2, cid2, fr2, he2⟩ <;>
      (rw [he1, he2]; by_cases hiv : err = some "invalid_auth" <;> simp [hiv])
  · have k1 := hok 1 (by omega) (by omega)
    have k2 := hok 2 (by omega) (by omega)
    have k3 := hok 3 (by omega) (by omega)
    have s1 := hsam 1 (by omega) (by omega)
    have s2 := hsam 2 (by omega) (by omega)
    have s3 := hsam 3 (by omega) (by omega)
    have c1 := hcont 1 (by omega) (by omega)
    have c2 := hcont 2 (by omega) (by omega)
    have c3 := hcont 3 (by omega) (by omega)
    have hrun : searchSlackMessages api token query =
        ⟨.ok (m 1 ++ (m 2 ++ m 3)),
          .startSearch query :: .totalHits (tc 1) :: .pageFound 1 (m 1).length ::
            (es 1 ++ (.pageFound 2 (m 2).length ::
              (es 2 ++ (.pageFound 3 (m 3).length ::
                (es 3 ++ (.apiError err ::
                  ((if err = some "invalid_auth" then [.invalidAuthNote] else []) ++
                    [.completed (m 1 ++ (m 2 ++ m 3)).length]))))))),
          [1, 2, 3, 4]⟩ := by
      simp [searchSlackMessages, searchIter, k1, k2, k3, s1, s2, s3, c1, c2, c3, hfail]
    rw [hrun]
    refine ⟨by simp [pagesList], by simp [pagesConcat], by simp, ?_⟩
    rcases samplePhase_entries s1 with he1 | ⟨nm1, cid1, fr1, he1⟩ <;>
      rcases samplePhase_entries s2 with he2 | ⟨nm2, cid2, fr2, he2⟩ <;>
      rcases samplePhase_entries s3 with he3 | ⟨nm3, cid3, fr3, he3⟩ <;>
      (rw [he1, he2, he3]; by_cases hiv : err = some "invalid_auth" <;> simp [hiv])
  · have k1 := hok 1 (by omega) (by omega)
    have k2 := hok 2 (by omega) (by omega)
    have k3 := hok 3 (by omega) (by omega)
    have k4 := hok 4 (by omega) (by omega)
    have s1 := hsam 1 (by omega) (by omega)
    have s2 := hsam 2 (by omega) (by omega)
    have s3 := hsam 3 (by omega) (by omega)
    have s4 := hsam 4 (by omega) (by omega)
    have c1 := hcont 1 (by omega) (by omega)
    have c2 := hcont 2 (by omega) (by omega)
    have c3 := hcont 3 (by omega) (by omega)
    have c4 := hcont 4 (by omega) (by omega)
    have hrun : searchSlackMessages api token query =
        ⟨.ok (m 1 ++ (m 2 ++ (m 3 ++ m 4))),
          .startSearch query :: .totalHits (tc 1) :: .pageFound 1 (m 1).length ::
            (es 1 ++ (.pageFound 2 (m 2).length ::
              (es 2 ++ (.pageFound 3 (m 3).length ::
                (es 3 ++ (.pageFound 4 (m 4).length ::
                  (es 4 ++ (.apiError err ::
                    ((if err = some "invalid_auth" then [.invalidAuthNote] else []) ++
                      [.completed (m 1 ++ (m 2 ++ (m 3 ++ m 4))).length]))))))))),
          [1, 2, 3, 4, 5]⟩ := by
      simp [searchSlackMessages, searchIter, k1, k2, k3, k4, s1, s2, s3, s4,
        c1, c2, c3, c4, hfail]
    rw [hrun]
    refine ⟨by simp [pagesList], by simp [pagesConcat], by simp, ?_⟩
    rcases samplePhase_entries s1 with he1 | ⟨nm1, cid1, fr1, he1⟩ <;>
      rcases samplePhase_entries s2 with he2 | ⟨nm2, cid2, fr2, he2⟩ <;>
      rcases samplePhase_entries s3 with he3 | ⟨nm3, cid3, fr3, he3⟩ <;>
      rcases samplePhase_entries s4 with he4 | ⟨nm4, cid4, fr4, he4⟩ <;>
      (rw [he1, he2, he3, he4]; by_cases hiv : err = some "invalid_auth" <;> simp [hiv])

/-- Witness for the amended C3: `ok:false, error:"invalid_auth"` on page 2
after a clean page 1 yields requests `[1, 2]`, page 1's matches, the error
log and the distinguished invalid-auth line. -/
theorem searchSlackMessages_failure_aborts_witness :
    (searchSlackMessages apiFailW "tok" "q").requests = pagesList 2
    ∧ (searchSlackMessages apiFailW "tok" "q").result =
        .ok (pagesConcat (fun _ => [mmC]) 1)
    ∧ LogEntry.apiError (some "invalid_auth") ∈
        (searchSlackMessages apiFailW "tok" "q").log
    ∧ LogEntry.invalidAuthNote ∈ (searchSlackMessages apiFailW "tok" "q").log := by
  have h := searchSlackMessages_failure_aborts apiFailW "tok" "q" 2 (fun _ => [mmC])
    (fun _ => 3) (fun _ => 1)
    (fun _ => [.sampleMatch (some "general") (some "C") ("hello".take 30)])
    (some "invalid_auth") (by omega) (by omega)
    (fun p h1 h2 => by
      have hp : p = 1 := by omega
      subst hp
      rfl)
    (fun p h1 h2 => rfl)
    (fun p h1 h2 => by
      have hp : p = 1 := by omega
      subst hp
      show 1 + 1 ≤ 3
      omega)
    rfl
  exact ⟨h.1, h.2.1, h.2.2.1, h.2.2.2.mpr rfl⟩

/-- C7 counterexample: with all three secrets configured but a search-page
body that `JSON.parse` rejects (e.g. an HTML error page), the `JSON.parse`
exception of line 97 propagates out of `reportYesterdayMentions`, which has no
try/catch — the claim that no environment behaviour makes an exception escape
the entry function is false. -/
theorem reportYesterdayMentions_throws_on_malformed_body :
    (reportYesterdayMentions envBadJson).result = .error .jsonParse := rfl

/-- C7 amended: provided every search-page response body parses as JSON with
the shape the code dereferences and each fetched page's first match (when
present) carries its `channel` and `text` fields, `reportYesterdayMentions`
returns normally in every case — missing secrets, API failures, any webhook
status — with every failure mode reduced to log output.  (Termination holds
by construction: the embedding is a total function.) -/
theorem reportYesterdayMentions_no_throw (env : ReportEnv)
    (hwf : ∀ p, env.api p ≠ .malformed)
    (hsam : ∀ p ms pc tc, env.api p = .success ms pc tc →
        (samplePhase ms).isOk = true) :
    (reportYesterdayMentions env).result = .ok () := by
  obtain ⟨msgs, hres⟩ := searchSlackMessages_result_ok env.api
    (env.props.userToken.getD "")
    (buildQuery (env.props.userId.getD "") env.dateString env.todayString)
    hwf hsam
  simp only [reportYesterdayMentions]
  split
  · rfl
  · simp only [hres]
    split <;> rfl

/-- Witness for the amended C7: full configuration, a cleanly failing search
(`ok:false`), webhook status 200 — the run returns normally. -/
theorem reportYesterdayMentions_no_throw_witness :
    (reportYesterdayMentions envCleanW).result = .ok () :=
  reportYesterdayMentions_no_throw envCleanW
    (fun p => by simp [envCleanW])
    (fun p ms pc tc h => by simp [envCleanW] at h)

/-- C8: `postToSlack` classifies the outcome solely by the HTTP status code —
the success line is logged exactly when the status is 200, and any other
status logs the failure line carrying that status code and the response body.
The embedding returns only log lines: no error value or exception reaches the
caller in either case. -/
theorem postToSlack_status_classification (reply : WebhookReply)
    (url text : String) :
    (postToSlack reply url text = [.postSuccess] ↔ reply.status = 200)
    ∧ (reply.status ≠ 200 →
        postToSlack reply url text = [.postFailure reply.status reply.body]) := by
  refine ⟨⟨?_, ?_⟩, ?_⟩
  · intro h
    by_contra hne
    simp [postToSlack, hne] at h
  · intro h
    simp [postToSlack, h]
  · intro h
    simp [postToSlack, h]

/-- Witness for C8: status 200 logs the success line; status 403 logs the
failure line with the code and body. -/
theorem postToSlack_status_classification_witness :
    postToSlack ⟨200, "ok"⟩ "https://hooks.example/x" "hello" = [.postSuccess]
    ∧ postToSlack ⟨403, "invalid_token"⟩ "https://hooks.example/x" "hello" =
        [.postFailure 403 "invalid_token"] :=
  ⟨(postToSlack_status_classification ⟨200, "ok"⟩ "https://hooks.example/x"
      "hello").1.mpr rfl,
    (postToSlack_status_classification ⟨403, "invalid_token"⟩
      "https://hooks.example/x" "hello").2 (by decide)⟩

theorem filter_self_idem {α : Type} (p : α → Bool) :
    ∀ l : List α, (l.filter p).filter p = l.filter p
  | [] => rfl
  | a :: l => by
    by_cases h : p a = true <;>
      simp [List.filter_cons, h, filter_self_idem p l]

/-- C9: one call of `setDailyMentionTrigger` leaves exactly one trigger bound
to the handler `reportYesterdayMentions`, whatever the starting trigger list;
and the operation is idempotent on the trigger list, so repeated calls keep
exactly that one trigger. -/
theorem setDailyMentionTrigger_idempotent (triggers : List Trigger) :
    ((setDailyMentionTrigger triggers).1.countP
        (fun t => t.handlerFunction == "reportYesterdayMentions")) = 1
    ∧ (setDailyMentionTrigger (setDailyMentionTrigger triggers).1).1 =
        (setDailyMentionTrigger triggers).1 := by
  constructor
  · rw [setDailyMentionTrigger, List.countP_append]
    have h0 : (triggers.filter
        (fun t => t.handlerFunction ≠ "reportYesterdayMentions")).countP
        (fun t => t.handlerFunction == "reportYesterdayMentions") = 0 := by
      rw [List.countP_eq_zero]
      intro t ht
      have h2 := (List.mem_filter.mp ht).2
      simp only [ne_eq, decide_not, Bool.not_eq_eq_eq_not, Bool.not_true,
        decide_eq_false_iff_not] at h2
      simpa using h2
    rw [h0]
    rfl
  · simp only [setDailyMentionTrigger, List.filter_append]
    rw [filter_self_idem]
    have hT : ([dailyMentionTrigger].filter
        (fun t => t.handlerFunction ≠ "reportYesterdayMentions")) = [] := rfl
    rw [hT, List.append_nil]

end GasSlackNotifier
